import Mathlib

/-
Verification of the Strata metadata-preprocessing pipeline
(`src/utils/metadata_preprocessor/`): a shallow embedding in Lean 4 of the
data splitter (`data_splitter.py`), the field standardizers and universal
question generator (`base_processor.py`), the validator (`data_validator.py`),
and the VQA enricher (`vqa_enricher.py`), together with theorems settling the
specification claims about them.

Modelling conventions:
- Python `float` ratio arithmetic is modelled over ℚ (exact rationals); every
  concrete value used in a theorem below is exactly representable in binary
  floating point, so the ℚ computation agrees with the Python one there.
- Python `int(x)` (truncation toward zero) is `pytrunc`; Python list slicing
  `l[a:b]` with clamping and negative-index wraparound is `pySliceTo` /
  `pySliceFrom` / `pySlice` via `pyIdx`.
- `random.shuffle` is modelled by an explicit reordering function passed as a
  parameter, constrained to produce a permutation in each theorem.
- Python strings use Lean `String`; `str.lower()` and `str.strip()` are
  modelled by structurally recursive `lowerStr` / `stripStr` (ASCII case
  folding, whitespace trimming), so the kernel can evaluate them.
-/

/-! ## Python primitives -/

/-- Python `int(x)` applied to a float/rational: truncation toward zero. -/
def pytrunc (q : ℚ) : ℤ := if q < 0 then -(Int.floor (-q)) else Int.floor q

/-- Resolution of a Python slice index against a list of length `n`:
negative indices count from the end, out-of-range indices clamp to `[0, n]`. -/
def pyIdx (n : ℕ) (i : ℤ) : ℕ := if i < 0 then (i + n).toNat else min i.toNat n

/-- Python `l[:b]`. -/
def pySliceTo (l : List α) (b : ℤ) : List α := l.take (pyIdx l.length b)

/-- Python `l[a:]`. -/
def pySliceFrom (l : List α) (a : ℤ) : List α := l.drop (pyIdx l.length a)

/-- Python `l[a:b]`. -/
def pySlice (l : List α) (a b : ℤ) : List α :=
  (l.take (pyIdx l.length b)).drop (pyIdx l.length a)

/-- ASCII lower-casing of a string, as Python `str.lower()` on ASCII input;
structurally recursive so that the kernel can evaluate it. -/
def lowerStr (s : String) : String := ⟨s.data.map Char.toLower⟩

/-- Whitespace trimming on a character list (both ends). -/
def stripChars (cs : List Char) : List Char :=
  ((cs.dropWhile Char.isWhitespace).reverse.dropWhile Char.isWhitespace).reverse

/-- Python `str.strip()` with no argument: trims whitespace at both ends. -/
def stripStr (s : String) : String := ⟨stripChars s.data⟩

/-- Loosely-typed Python value, as found in a JSON/dict field: `None`, a
number, or a string. -/
inductive PyVal where
  | vnone : PyVal
  | vnum : ℚ → PyVal
  | vstr : String → PyVal
deriving DecidableEq

/-- Python truthiness of a `PyVal` (`not x` in the sources): `None`, `0` and
`""` are falsy. -/
def pyFalsy : PyVal → Bool
  | .vnone => true
  | .vnum q => q = 0
  | .vstr s => s = ""

/-- Python `str(x)` for the values we model. -/
def pyStrOf : PyVal → String
  | .vnone => "None"
  | .vnum q => toString q
  | .vstr s => s

/-- Accumulated value of a list of decimal digit characters. -/
def digitsVal (cs : List Char) : ℕ :=
  cs.foldl (fun n c => n * 10 + (c.toNat - 48)) 0

/-- Core of Python `float(string)` after sign handling: an unsigned decimal
literal `digits`, `digits.`, `.digits` or `digits.digits`. (Exponents and the
`inf`/`nan` spellings are not modelled; no claim depends on them.) -/
def pyFloatCore (cs : List Char) : Option ℚ :=
  let ip := cs.takeWhile Char.isDigit
  let rest := cs.dropWhile Char.isDigit
  match rest with
  | [] => if ip.isEmpty then none else some (digitsVal ip : ℚ)
  | '.' :: fp =>
      if fp.all Char.isDigit && !(ip.isEmpty && fp.isEmpty) then
        some ((digitsVal (ip ++ fp) : ℚ) / (10 ^ fp.length))
      else none
  | _ => none

/-- Python `float(string)`: strips whitespace, handles an optional sign, then
parses a decimal literal; `none` models the `ValueError` raised otherwise. -/
def pyFloatOfStr (s : String) : Option ℚ :=
  match stripChars s.data with
  | '+' :: rest => pyFloatCore rest
  | '-' :: rest => (pyFloatCore rest).map (fun q => -q)
  | cs => pyFloatCore cs

/-- Python `float(x)` on a loosely-typed value; `none` models the
`ValueError`/`TypeError` raised on non-coercible input. -/
def tryFloat : PyVal → Option ℚ
  | .vnone => none
  | .vnum q => some q
  | .vstr s => pyFloatOfStr s

/-! ## Data model -/

/-- One `vqa_questions` entry: `{question, answer, type}`
(`type` is absent on the universal questions). -/
structure QA where
  question : String
  answer : String
  qtype : Option String := none
deriving DecidableEq

/-- Canonical record produced by the source adapters (`base_processor.py`,
`create_standardized_sample`), as consumed by the enricher and splitter.
`metadata` is opaque downstream and modelled as an association list. -/
structure Record where
  dataset_name : String
  sample_id : String
  image_path : String
  diagnosis : String
  age : Option ℚ
  sex : Option String
  anatomical_site : Option String
  metadata : List (String × String)
  vqa_questions : List QA
deriving DecidableEq

/-! ## Field standardizers (`base_processor.py`) -/

/-- Synonym table of `BaseProcessor.standardize_diagnosis` (`diagnosis_map`). -/
def diagnosisMap : List (String × String) :=
  [("mel", "melanoma"),
   ("melanoma", "melanoma"),
   ("melanoma-in-situ", "melanoma"),
   ("malignant melanoma", "melanoma"),
   ("nv", "nevus"),
   ("nevus", "nevus"),
   ("benign", "benign"),
   ("bkl", "benign_keratosis"),
   ("benign keratosis", "benign_keratosis"),
   ("bcc", "basal_cell_carcinoma"),
   ("basal cell carcinoma", "basal_cell_carcinoma"),
   ("akiec", "actinic_keratosis"),
   ("actinic keratosis", "actinic_keratosis"),
   ("df", "dermatofibroma"),
   ("dermatofibroma", "dermatofibroma"),
   ("vasc", "vascular_lesion"),
   ("vascular lesion", "vascular_lesion"),
   ("scc", "squamous_cell_carcinoma"),
   ("squamous cell carcinoma", "squamous_cell_carcinoma"),
   ("squamous-cell-carcinoma-in-situ", "squamous_cell_carcinoma")]

/-- `BaseProcessor.standardize_diagnosis`: falsy or missing input yields
`"unknown"`; otherwise the input is stringified, lower-cased and stripped, and
looked up in `diagnosisMap`, unmapped values passing through (normalized). -/
def standardize_diagnosis (d : PyVal) : String :=
  if pyFalsy d then "unknown"
  else
    let s := stripStr (lowerStr (pyStrOf d))
    (diagnosisMap.lookup s).getD s

/-- `BaseProcessor.standardize_age`: `None` stays `None`; otherwise coerce with
`float(...)`, keeping the value only when `0 <= age_val <= 150`. -/
def standardize_age (age : PyVal) : Option ℚ :=
  match age with
  | .vnone => none
  | v =>
    match tryFloat v with
    | some q => if 0 ≤ q ∧ q ≤ 150 then some q else none
    | none => none

/-- Reinjection of a `standardize_age` result as a Python value, for stating
idempotence of repeated standardization. -/
def pyOfOpt : Option ℚ → PyVal
  | none => .vnone
  | some q => .vnum q

/-- Decimal rendering of an age for the f-string `f"{sample['age']} years old"`
(the exact float spelling is abstracted; no claim inspects its digits). -/
def ageRepr (q : ℚ) : String := toString q

/-- Age block of `generate_vqa_questions`: guarded by `if sample.get('age'):`,
i.e. Python truthiness — absent, `None` and `0` all skip the question. -/
def ageQuestionPart (o : Option ℚ) : List QA :=
  match o with
  | some a =>
      if a ≠ 0 then [⟨"What is the age of the patient?", ageRepr a ++ " years old", none⟩]
      else []
  | none => []

/-- Sex block of `generate_vqa_questions` (`if sample.get('sex'):`). -/
def sexQuestionPart (o : Option String) : List QA :=
  match o with
  | some sx => if sx ≠ "" then [⟨"What is the sex of the patient?", sx, none⟩] else []
  | none => []

/-- Anatomical-site block of `generate_vqa_questions`
(`if sample.get('anatomical_site'):`). -/
def siteQuestionPart (o : Option String) : List QA :=
  match o with
  | some st => if st ≠ "" then [⟨"Where is this lesion located on the body?", st, none⟩] else []
  | none => []

/-- Malignancy block of `generate_vqa_questions`: affirming for melanoma,
denying for nevus/benign, absent otherwise. -/
def maligQuestionPart (diagnosis : String) : List QA :=
  if diagnosis = "melanoma" then
    [⟨"Is this lesion malignant?", "Yes, this is a malignant melanoma", none⟩]
  else if diagnosis = "nevus" ∨ diagnosis = "benign" then
    [⟨"Is this lesion malignant?", "No, this is a benign lesion", none⟩]
  else []

/-- `BaseProcessor.generate_vqa_questions`: the universal question list, in
source order — diagnosis, then (truthiness-guarded) age, sex, anatomical site,
then the malignancy question for melanoma / nevus / benign. -/
def generate_vqa_questions (s : Record) : List QA :=
  [⟨"What is the diagnosis of this skin lesion?", s.diagnosis, none⟩]
  ++ ageQuestionPart s.age
  ++ sexQuestionPart s.sex
  ++ siteQuestionPart s.anatomical_site
  ++ maligQuestionPart s.diagnosis

/-! ## Validator (`data_validator.py`) -/

/-- One entry of a `vqa_questions` value as seen by the validator: either not a
dict at all, or a dict whose `question` / `answer` keys may each be absent. -/
inductive QAEntry where
  | notDict : QAEntry
  | entry : Option String → Option String → QAEntry
deriving DecidableEq

/-- A sample as seen by `DataValidator.validate_sample`: each top-level key may
be absent (`none` at the outer layer). `age`, `sex` and `anatomical_site` carry
loosely-typed values; `vqa_questions` may be present but not a list (inner
`none`). -/
structure VSample where
  dataset_name : Option PyVal := none
  sample_id : Option PyVal := none
  image_path : Option String := none
  diagnosis : Option String := none
  age : Option PyVal := none
  sex : Option PyVal := none
  anatomical_site : Option PyVal := none
  metadata : Option Unit := none
  vqa_questions : Option (Option (List QAEntry)) := none
deriving DecidableEq

/-- Validator messages, one constructor per f-string built by
`validate_sample` (payloads keep the data interpolated into the message). -/
inductive VMsg where
  | missingField : ℕ → String → VMsg
  | unusualDiagnosis : ℕ → String → VMsg
  | unusualSex : ℕ → VMsg
  | unusualSite : ℕ → VMsg
  | unusualAge : ℕ → ℚ → VMsg
  | invalidAgeFormat : ℕ → VMsg
  | vqaNotList : ℕ → VMsg
  | qaNotDict : ℕ → ℕ → VMsg
  | qaMissingKeys : ℕ → ℕ → VMsg
  | qaEmptyQuestion : ℕ → ℕ → VMsg
  | qaEmptyAnswer : ℕ → ℕ → VMsg
  | emptyImagePath : ℕ → VMsg
deriving DecidableEq

/-- The validator's `required_fields` list. -/
def requiredFields : List String :=
  ["dataset_name", "sample_id", "image_path", "diagnosis",
   "age", "sex", "anatomical_site", "metadata", "vqa_questions"]

/-- Key-presence test backing the `field not in sample` check. -/
def fieldPresent (s : VSample) : String → Bool
  | "dataset_name" => s.dataset_name.isSome
  | "sample_id" => s.sample_id.isSome
  | "image_path" => s.image_path.isSome
  | "diagnosis" => s.diagnosis.isSome
  | "age" => s.age.isSome
  | "sex" => s.sex.isSome
  | "anatomical_site" => s.anatomical_site.isSome
  | "metadata" => s.metadata.isSome
  | "vqa_questions" => s.vqa_questions.isSome
  | _ => false

/-- The validator's `valid_diagnoses` list. -/
def validDiagnoses : List String :=
  ["melanoma", "nevus", "benign", "benign_keratosis",
   "basal_cell_carcinoma", "actinic_keratosis", "dermatofibroma",
   "vascular_lesion", "squamous_cell_carcinoma", "unknown"]

/-- Membership in `valid_sexes = ['male', 'female', 'unknown', None]`. -/
def sexValid (v : PyVal) : Bool :=
  v = .vstr "male" || v = .vstr "female" || v = .vstr "unknown" || v = .vnone

/-- Membership in `valid_anatomical_sites` (which also contains `None`). -/
def siteValid (v : PyVal) : Bool :=
  v = .vstr "head_neck" || v = .vstr "trunk" || v = .vstr "upper_extremity" ||
  v = .vstr "lower_extremity" || v = .vstr "genitalia" || v = .vstr "unknown" ||
  v = .vnone

/-- Checks on one indexed `vqa_questions` entry: non-dict entries are an error
(and are skipped thereafter); missing `question`/`answer` keys are an error;
blank question or answer text is a warning. Result is (errors, warnings). -/
def qaCheckOne (i j : ℕ) : QAEntry → List VMsg × List VMsg
  | .notDict => ([.qaNotDict i j], [])
  | .entry q a =>
      ((if q.isNone || a.isNone then [.qaMissingKeys i j] else []),
       (if stripStr (q.getD "") = "" then [.qaEmptyQuestion i j] else [])
       ++ (if stripStr (a.getD "") = "" then [.qaEmptyAnswer i j] else []))

/-- The `enumerate(sample['vqa_questions'])` loop of `validate_sample`. -/
def qaChecks (i : ℕ) (l : List QAEntry) : List VMsg × List VMsg :=
  ((l.enum.map (fun p => (qaCheckOne i p.1 p.2).1)).flatten,
   (l.enum.map (fun p => (qaCheckOne i p.1 p.2).2)).flatten)

/-- `DataValidator.validate_sample`: returns the (errors, warnings) pair built
in source order — missing required fields, vocabulary warnings, the age
coercion/range check, per-entry `vqa_questions` checks, empty `image_path`. -/
def validate_sample (s : VSample) (i : ℕ) : List VMsg × List VMsg :=
  let missErrs := (requiredFields.filter (fun f => !(fieldPresent s f))).map (VMsg.missingField i)
  let diagWarn : List VMsg :=
    match s.diagnosis with
    | some d => if d ∈ validDiagnoses then [] else [.unusualDiagnosis i d]
    | none => []
  let sexWarn : List VMsg :=
    match s.sex with
    | some v => if sexValid v then [] else [.unusualSex i]
    | none => []
  let siteWarn : List VMsg :=
    match s.anatomical_site with
    | some v => if siteValid v then [] else [.unusualSite i]
    | none => []
  let agePair : List VMsg × List VMsg :=
    match s.age with
    | some v =>
        if v = .vnone then ([], [])
        else
          match tryFloat v with
          | some q => if q < 0 ∨ 150 < q then ([], [.unusualAge i q]) else ([], [])
          | none => ([.invalidAgeFormat i], [])
    | none => ([], [])
  let vqaPair : List VMsg × List VMsg :=
    match s.vqa_questions with
    | some none => ([.vqaNotList i], [])
    | some (some l) => qaChecks i l
    | none => ([], [])
  let imgErrs : List VMsg :=
    match s.image_path with
    | some p => if p = "" ∨ stripStr p = "" then [.emptyImagePath i] else []
    | none => []
  (missErrs ++ agePair.1 ++ vqaPair.1 ++ imgErrs,
   diagWarn ++ sexWarn ++ siteWarn ++ agePair.2 ++ vqaPair.2)

/-! ## Enricher (`vqa_enricher.py`) -/

/-- The deduplication-and-cap loop of `VQAEnricher.enrich_sample`: walk the
generated questions in order, keeping one whose lower-cased text is not in
`seen` while fewer than `budget` have been kept; kept texts are added to
`seen`, and nothing is recorded for rejected ones. -/
def dedupFilter (seen : List String) (budget : ℕ) : List QA → List QA
  | [] => []
  | qa :: rest =>
      if lowerStr qa.question ∉ seen ∧ 0 < budget then
        qa :: dedupFilter (lowerStr qa.question :: seen) (budget - 1) rest
      else
        dedupFilter seen budget rest

/-- The same walk with no cap: collects every generated question whose
lower-cased text is new (first occurrence wins). Its length is the number of
generated questions that are unique and not already present. -/
def dedupAll (seen : List String) : List QA → List QA
  | [] => []
  | qa :: rest =>
      if lowerStr qa.question ∉ seen then
        qa :: dedupAll (lowerStr qa.question :: seen) rest
      else
        dedupAll seen rest

/-- Lower-cased texts of the questions already on a record
(the `existing_questions` set). -/
def existingTexts (s : Record) : List String :=
  s.vqa_questions.map (fun qa => lowerStr qa.question)

/-- `VQAEnricher.enrich_sample`: `gen` is the concatenated output of the five
generators (diagnosis → anatomical → demographic → clinical → comparison; the
sampled content is randomness-dependent, so it is a parameter here). The copy
keeps every field and appends the deduplicated new questions. -/
def enrich_sample (s : Record) (gen : List QA) (maxNewQuestions : ℕ) : Record :=
  { s with vqa_questions := s.vqa_questions ++ dedupFilter (existingTexts s) maxNewQuestions gen }

/-! ## Splitter (`data_splitter.py`) -/

/-- Guard shared by `random_split` and `stratified_split`:
`abs(train_ratio + val_ratio + test_ratio - 1.0) > 1e-6` raises `ValueError`. -/
def ratiosBad (t v u : ℚ) : Prop := |t + v + u - 1| > 1 / 1000000

instance (t v u : ℚ) : Decidable (ratiosBad t v u) := by
  unfold ratiosBad; infer_instance

/-- `DataSplitter.random_split`, with the in-place `random.shuffle` modelled by
the reordering function `σ`. `none` models the raised `ValueError`. -/
def random_split (σ : List α → List α) (data : List α) (t v u : ℚ) :
    Option (List α × List α × List α) :=
  if ratiosBad t v u then none
  else
    let dc := σ data
    let n := dc.length
    let nTrain := pytrunc (n * t)
    let nVal := pytrunc (n * v)
    some (pySliceTo dc nTrain, pySlice dc nTrain (nTrain + nVal), pySliceFrom dc (nTrain + nVal))

/-- Per-group (train, val, test) counts of `DataSplitter.stratified_split` for
a group of `n` samples: truncated proportional counts, the ≥3 small-sample
bumps to 1, the negative-test adjustment, and the fixed size-2 / size-1 rules
(`(0,0,0)` stands for the `continue` on an empty group). -/
def groupCounts (n : ℕ) (t v : ℚ) : ℤ × ℤ × ℤ :=
  let nTrain := pytrunc (n * t)
  let nVal := pytrunc (n * v)
  if 3 ≤ n then
    let nTrain := if nTrain = 0 then 1 else nTrain
    let nVal := if nVal = 0 then 1 else nVal
    let nTest := n - nTrain - nVal
    if nTest < 0 then (nTrain, n - nTrain, 0) else (nTrain, nVal, nTest)
  else if n = 2 then (1, 1, 0)
  else if n = 1 then (1, 0, 0)
  else (0, 0, 0)

/-- Loop body of `stratified_split` for one stratification group: shuffle the
group, compute the counts, and cut the three slices. -/
def groupAssign (samples : List α) (t v : ℚ) : List α × List α × List α :=
  let c := groupCounts samples.length t v
  (pySliceTo samples c.1, pySlice samples c.1 (c.1 + c.2.1), pySliceFrom samples (c.1 + c.2.1))

/-- Key list of a Python dict built by insertion (`groups[key].append(...)`):
first-occurrence order, no duplicates. -/
def addKey (ks : List String) (k : String) : List String :=
  if k ∈ ks then ks else ks ++ [k]

/-- Keys of the grouping dict of `stratified_split` / `dataset_aware_split`,
in insertion order. -/
def groupKeys (key : α → String) (l : List α) : List String :=
  l.foldl (fun ks x => addKey ks (key x)) []

/-- `DataSplitter.stratified_split` over a grouping key (the `stratify_by`
field, defaulting to the diagnosis); `σ` models every `random.shuffle` call. -/
def stratified_split (σ : List α → List α) (key : α → String) (data : List α)
    (t v u : ℚ) : Option (List α × List α × List α) :=
  if ratiosBad t v u then none
  else
    let parts := (groupKeys key data).map
      (fun k => groupAssign (σ (data.filter (fun x => key x = k))) t v)
    some (σ (parts.map (·.1)).flatten,
          σ (parts.map (·.2.1)).flatten,
          σ (parts.map (·.2.2)).flatten)

/-- Record collection of `dataset_aware_split`: all records of the listed
datasets, in dataset order. -/
def collectByKeys (data : List Record) (kl : List String) : List Record :=
  (kl.map (fun k => data.filter (fun r => r.dataset_name = k))).flatten

/-- Dataset name order of `dataset_aware_split`: the dict keys in insertion
order, shuffled (`τ` models `random.shuffle(datasets)`). -/
def datasetKeyOrder (τ : List String → List String) (data : List Record) : List String :=
  τ (groupKeys Record.dataset_name data)

/-- `n_train_datasets = max(1, int(n_datasets * train_ratio))`. -/
def nTrainDatasets (ks : List String) (t : ℚ) : ℤ := max 1 (pytrunc (ks.length * t))

/-- `n_val_datasets = max(1, int(n_datasets * val_ratio)) if n_datasets > 1 else 0`. -/
def nValDatasets (ks : List String) (v : ℚ) : ℤ :=
  if 1 < ks.length then max 1 (pytrunc (ks.length * v)) else 0

/-- `DataSplitter.dataset_aware_split`: group records by `dataset_name`,
shuffle the distinct dataset names (`τ`), assign `max(1, int(n*t))` names to
train and, when more than one dataset exists, `max(1, int(n*v))` names to val,
the rest to test. Note: this method performs no ratio validation, so the
unused `u` mirrors the ignored `test_ratio` parameter. -/
def dataset_aware_split (τ : List String → List String) (data : List Record)
    (t v _u : ℚ) : List Record × List Record × List Record :=
  let ks := datasetKeyOrder τ data
  (collectByKeys data (pySliceTo ks (nTrainDatasets ks t)),
   collectByKeys data (pySlice ks (nTrainDatasets ks t) (nTrainDatasets ks t + nValDatasets ks v)),
   collectByKeys data (pySliceFrom ks (nTrainDatasets ks t + nValDatasets ks v)))

/-! ## Helper lemmas on slices and truncation -/

theorem pyIdx_le (n : ℕ) (i : ℤ) : pyIdx n i ≤ n := by
  unfold pyIdx
  split
  · omega
  · exact min_le_right _ _

theorem pyIdx_mono (n : ℕ) {i j : ℤ} (hi : 0 ≤ i) (hij : i ≤ j) :
    pyIdx n i ≤ pyIdx n j := by
  unfold pyIdx
  rw [if_neg (not_lt.2 hi), if_neg (not_lt.2 (hi.trans hij))]
  exact min_le_min (Int.toNat_le_toNat hij) le_rfl

theorem pytrunc_of_nonneg {q : ℚ} (h : 0 ≤ q) : pytrunc q = ⌊q⌋ :=
  if_neg (not_lt.2 h)

theorem pytrunc_nonneg {q : ℚ} (h : 0 ≤ q) : 0 ≤ pytrunc q := by
  rw [pytrunc_of_nonneg h]
  exact Int.floor_nonneg.2 h

theorem slice3_eq (l : List α) {k₁ k₂ : ℕ} (h : k₁ ≤ k₂) :
    l.take k₁ ++ ((l.take k₂).drop k₁ ++ l.drop k₂) = l := by
  have h1 : (l.take k₂).take k₁ = l.take k₁ := by
    rw [List.take_take, min_eq_left h]
  calc l.take k₁ ++ ((l.take k₂).drop k₁ ++ l.drop k₂)
      = ((l.take k₂).take k₁ ++ (l.take k₂).drop k₁) ++ l.drop k₂ := by
        rw [h1, List.append_assoc]
    _ = l.take k₂ ++ l.drop k₂ := by rw [List.take_append_drop]
    _ = l := List.take_append_drop _ _

theorem pySlices_eq (l : List α) {a b : ℤ} (ha : 0 ≤ a) (hab : a ≤ b) :
    pySliceTo l a ++ (pySlice l a b ++ pySliceFrom l b) = l :=
  slice3_eq l (pyIdx_mono l.length ha hab)

theorem length_pySliceTo (l : List α) (b : ℤ) :
    (pySliceTo l b).length = pyIdx l.length b := by
  unfold pySliceTo
  rw [List.length_take, min_eq_left (pyIdx_le _ _)]

theorem length_pySlice (l : List α) (a b : ℤ) :
    (pySlice l a b).length = pyIdx l.length b - pyIdx l.length a := by
  unfold pySlice
  rw [List.length_drop, List.length_take, min_eq_left (pyIdx_le _ _)]

theorem length_pySliceFrom (l : List α) (a : ℤ) :
    (pySliceFrom l a).length = l.length - pyIdx l.length a := by
  unfold pySliceFrom
  rw [List.length_drop]

theorem random_split_eval {α : Type} (σ : List α → List α) (data : List α)
    (t v u : ℚ) (h : ¬ ratiosBad t v u) :
    random_split σ data t v u =
      some (pySliceTo (σ data) (pytrunc ((σ data).length * t)),
            pySlice (σ data) (pytrunc ((σ data).length * t))
              (pytrunc ((σ data).length * t) + pytrunc ((σ data).length * v)),
            pySliceFrom (σ data)
              (pytrunc ((σ data).length * t) + pytrunc ((σ data).length * v))) := by
  simp [random_split, h]

/-! ## Claim C1 — `random_split` partitions its input -/

/-- C1 (counterexample): the claim quantifies over every ratio triple whose sum
is within `1e-6` of 1, but for the admissible triple
`(-0.5, 0.75, 0.75)` (sum exactly 1) on a 4-record input, the Python
negative-index slicing makes `random_split` return buckets of sizes 2, 0 and 3:
record `1` is duplicated between train and test, and the total is 5 ≠ 4, so
the buckets are not a partition of the input. -/
theorem c1_counterexample :
    |(-1/2 : ℚ) + 3/4 + 3/4 - 1| ≤ 1 / 1000000 ∧
    random_split id [0, 1, 2, 3] (-1/2 : ℚ) (3/4) (3/4) =
      some ([0, 1], [], [1, 2, 3]) ∧
    ¬ (([0, 1] ++ [] ++ [1, 2, 3] : List ℕ).Perm [0, 1, 2, 3]) ∧
    ([0, 1] : List ℕ).length + ([] : List ℕ).length + ([1, 2, 3] : List ℕ).length ≠
      ([0, 1, 2, 3] : List ℕ).length := by
  have hz : ((-1/2 : ℚ) + 3/4 + 3/4 - 1) = 0 := by norm_num
  have habs : |(-1/2 : ℚ) + 3/4 + 3/4 - 1| ≤ 1 / 1000000 := by
    rw [hz, abs_zero]
    positivity
  refine ⟨habs, ?_, by decide, by decide⟩
  have hbad : ¬ ratiosBad (-1/2 : ℚ) (3/4) (3/4) := not_lt.2 habs
  rw [random_split_eval id [0, 1, 2, 3] _ _ _ hbad]
  have e1 : pytrunc (((id [0, 1, 2, 3] : List ℕ).length : ℚ) * (-1/2)) = -2 := by
    show pytrunc (((4 : ℕ) : ℚ) * (-1/2)) = -2
    unfold pytrunc
    rw [if_pos (by norm_num : ((4 : ℕ) : ℚ) * (-1/2) < 0)]
    norm_num
  have e2 : pytrunc (((id [0, 1, 2, 3] : List ℕ).length : ℚ) * (3/4)) = 3 := by
    show pytrunc (((4 : ℕ) : ℚ) * (3/4)) = 3
    rw [pytrunc_of_nonneg (by norm_num)]
    norm_num
  rw [e1, e2]
  decide

/-- C1 (amended): for nonnegative train and val ratios whose triple sums to
1.0 within `1e-6`, `random_split` succeeds and its three buckets concatenate to
a permutation of the input — every record lands in exactly one bucket, none is
lost or duplicated, and the lengths sum exactly to the input length. -/
theorem c1_random_split_partition {α : Type} (σ : List α → List α)
    (data : List α) (t v u : ℚ) (hσ : (σ data).Perm data)
    (ht : 0 ≤ t) (hv : 0 ≤ v) (hs : |t + v + u - 1| ≤ 1 / 1000000) :
    ∃ tr va te, random_split σ data t v u = some (tr, va, te) ∧
      (tr ++ va ++ te).Perm data ∧
      tr.length + va.length + te.length = data.length := by
  have hbad : ¬ ratiosBad t v u := not_lt.2 hs
  rw [random_split_eval σ data t v u hbad]
  set dc := σ data with hdc
  set a := pytrunc ((dc.length : ℚ) * t) with haa
  set b := pytrunc ((dc.length : ℚ) * v) with hbb
  have ha : 0 ≤ a := pytrunc_nonneg (mul_nonneg (Nat.cast_nonneg _) ht)
  have hb : 0 ≤ b := pytrunc_nonneg (mul_nonneg (Nat.cast_nonneg _) hv)
  have heq : pySliceTo dc a ++ (pySlice dc a (a + b) ++ pySliceFrom dc (a + b)) = dc :=
    pySlices_eq dc ha (le_add_of_nonneg_right hb)
  refine ⟨_, _, _, rfl, ?_, ?_⟩
  · rw [List.append_assoc, heq]
    exact hσ
  · have h2 := congrArg List.length heq
    simp only [List.length_append] at h2
    have h3 := hσ.length_eq
    omega

/-- Witness for C1: a concrete 3-record split with the default ratios
`(0.7, 0.15, 0.15)` and the identity shuffle. -/
theorem c1_random_split_partition_witness :
    ∃ tr va te, random_split id [0, 1, 2] (7/10 : ℚ) (3/20) (3/20) = some (tr, va, te) ∧
      (tr ++ va ++ te).Perm [0, 1, 2] ∧
      tr.length + va.length + te.length = ([0, 1, 2] : List ℕ).length :=
  c1_random_split_partition id [0, 1, 2] (7/10) (3/20) (3/20)
    (List.Perm.refl _) (by norm_num) (by norm_num)
    (by rw [show ((7:ℚ)/10 + 3/20 + 3/20 - 1) = 0 by norm_num, abs_zero]; positivity)

/-! ## Claim C2 — per-group counts of `stratified_split` -/

theorem pyIdx_of_nonneg {i : ℤ} (h : 0 ≤ i) (n : ℕ) : pyIdx n i = min i.toNat n :=
  if_neg (not_lt.2 h)

theorem groupAssign_fst (samples : List α) (t v : ℚ) :
    (groupAssign samples t v).1 =
      pySliceTo samples (groupCounts samples.length t v).1 := rfl

theorem groupAssign_snd (samples : List α) (t v : ℚ) :
    (groupAssign samples t v).2.1 =
      pySlice samples (groupCounts samples.length t v).1
        ((groupCounts samples.length t v).1 + (groupCounts samples.length t v).2.1) := rfl

theorem groupAssign_thd (samples : List α) (t v : ℚ) :
    (groupAssign samples t v).2.2 =
      pySliceFrom samples
        ((groupCounts samples.length t v).1 + (groupCounts samples.length t v).2.1) := rfl

theorem groupCounts_ge3 {n : ℕ} (h3 : 3 ≤ n) {t v : ℚ} (ht : 0 ≤ t) (hv : 0 ≤ v) :
    groupCounts n t v =
      if (n : ℤ) - max (pytrunc ((n : ℚ) * t)) 1 - max (pytrunc ((n : ℚ) * v)) 1 < 0 then
        (max (pytrunc ((n : ℚ) * t)) 1, (n : ℤ) - max (pytrunc ((n : ℚ) * t)) 1, 0)
      else
        (max (pytrunc ((n : ℚ) * t)) 1, max (pytrunc ((n : ℚ) * v)) 1,
         (n : ℤ) - max (pytrunc ((n : ℚ) * t)) 1 - max (pytrunc ((n : ℚ) * v)) 1) := by
  have hA : 0 ≤ pytrunc ((n : ℚ) * t) := pytrunc_nonneg (mul_nonneg (Nat.cast_nonneg n) ht)
  have hB : 0 ≤ pytrunc ((n : ℚ) * v) := pytrunc_nonneg (mul_nonneg (Nat.cast_nonneg n) hv)
  have e1 : (if pytrunc ((n : ℚ) * t) = 0 then 1 else pytrunc ((n : ℚ) * t)) =
      max (pytrunc ((n : ℚ) * t)) 1 := by split_ifs with h <;> omega
  have e2 : (if pytrunc ((n : ℚ) * v) = 0 then 1 else pytrunc ((n : ℚ) * v)) =
      max (pytrunc ((n : ℚ) * v)) 1 := by split_ifs with h <;> omega
  simp only [groupCounts, if_pos h3, e1, e2]

/-- C2 (counterexample): the admissible ratio triple `(1.0, 0.0, 0.0)` sums to
1, yet `stratified_split` on a single stratification group of 3 records puts
all 3 in train and none in val — contradicting the claim that every group of
size ≥ 3 gets at least 1 record in val. -/
theorem c2_counterexample :
    stratified_split id (fun _ => "k") ([0, 1, 2] : List ℕ) 1 0 0 =
      some ([0, 1, 2], [], []) := by
  have hbad : ¬ ratiosBad (1 : ℚ) 0 0 := by
    unfold ratiosBad
    rw [show ((1:ℚ) + 0 + 0 - 1) = 0 by norm_num, abs_zero]
    norm_num
  have e1 : pytrunc ((3:ℚ)) = 3 := by
    rw [show pytrunc (3:ℚ) = ⌊(3:ℚ)⌋ from if_neg (by norm_num)]
    norm_num
  have e2 : pytrunc ((0:ℚ)) = 0 := by
    rw [show pytrunc (0:ℚ) = ⌊(0:ℚ)⌋ from if_neg (by norm_num)]
    norm_num
  norm_num [stratified_split, hbad, groupKeys, addKey, groupAssign, groupCounts,
    e1, e2, pySliceTo, pySlice, pySliceFrom, pyIdx, List.filter]

/-- C2 (amended): per stratification group the counts follow the size rules,
with one proviso for large train ratios — a group of `n ≥ 3` records always
gets at least one record in train, and at least one in val *provided* the
bumped train count `max(int(n*t), 1)` is below `n`; when that count reaches
`n`, train absorbs the whole group and both val and test are empty. Groups of
size 2 always split as (1 train, 1 val, 0 test), size 1 as (1, 0, 0), and an
empty group contributes nothing. -/
theorem c2_group_rules {α : Type} (samples : List α) (t v : ℚ)
    (ht : 0 ≤ t) (hv : 0 ≤ v) :
    (3 ≤ samples.length →
      1 ≤ (groupAssign samples t v).1.length ∧
      (max (pytrunc ((samples.length : ℚ) * t)) 1 < (samples.length : ℤ) →
        1 ≤ (groupAssign samples t v).2.1.length) ∧
      ((samples.length : ℤ) ≤ max (pytrunc ((samples.length : ℚ) * t)) 1 →
        (groupAssign samples t v).2.1 = [] ∧ (groupAssign samples t v).2.2 = [])) ∧
    (samples.length = 2 →
      (groupAssign samples t v).1.length = 1 ∧
      (groupAssign samples t v).2.1.length = 1 ∧
      (groupAssign samples t v).2.2 = []) ∧
    (samples.length = 1 →
      (groupAssign samples t v).1.length = 1 ∧
      (groupAssign samples t v).2.1 = [] ∧
      (groupAssign samples t v).2.2 = []) ∧
    (samples.length = 0 →
      (groupAssign samples t v).1 = [] ∧
      (groupAssign samples t v).2.1 = [] ∧
      (groupAssign samples t v).2.2 = []) := by
  have hA : 0 ≤ pytrunc ((samples.length : ℚ) * t) :=
    pytrunc_nonneg (mul_nonneg (Nat.cast_nonneg _) ht)
  have hB : 0 ≤ pytrunc ((samples.length : ℚ) * v) :=
    pytrunc_nonneg (mul_nonneg (Nat.cast_nonneg _) hv)
  set A := pytrunc ((samples.length : ℚ) * t) with hA'
  set B := pytrunc ((samples.length : ℚ) * v) with hB'
  refine ⟨?_, ?_, ?_, ?_⟩
  · intro h3
    rw [groupAssign_fst, groupAssign_snd, groupAssign_thd,
      groupCounts_ge3 h3 ht hv, ← hA', ← hB']
    by_cases hc : (samples.length : ℤ) - max A 1 - max B 1 < 0
    · rw [if_pos hc]
      refine ⟨?_, ?_, ?_⟩
      · rw [length_pySliceTo, pyIdx_of_nonneg (by omega : (0:ℤ) ≤ max A 1)]
        omega
      · rw [length_pySlice,
          pyIdx_of_nonneg (by omega : (0:ℤ) ≤ max A 1),
          pyIdx_of_nonneg (by omega : (0:ℤ) ≤ max A 1 + ((samples.length:ℤ) - max A 1))]
        omega
      · intro hdeg
        constructor
        · rw [← List.length_eq_zero, length_pySlice,
            pyIdx_of_nonneg (by omega : (0:ℤ) ≤ max A 1),
            pyIdx_of_nonneg (by omega : (0:ℤ) ≤ max A 1 + ((samples.length:ℤ) - max A 1))]
          omega
        · rw [← List.length_eq_zero, length_pySliceFrom,
            pyIdx_of_nonneg (by omega : (0:ℤ) ≤ max A 1 + ((samples.length:ℤ) - max A 1))]
          omega
    · rw [if_neg hc]
      refine ⟨?_, ?_, ?_⟩
      · rw [length_pySliceTo, pyIdx_of_nonneg (by omega : (0:ℤ) ≤ max A 1)]
        omega
      · rw [length_pySlice,
          pyIdx_of_nonneg (by omega : (0:ℤ) ≤ max A 1),
          pyIdx_of_nonneg (by omega : (0:ℤ) ≤ max A 1 + max B 1)]
        omega
      · intro hdeg
        omega
  · intro h2
    have hgc : groupCounts samples.length t v = (1, 1, 0) := by
      rw [h2]; norm_num [groupCounts]
    rw [groupAssign_fst, groupAssign_snd, groupAssign_thd, hgc]
    refine ⟨?_, ?_, ?_⟩
    · rw [length_pySliceTo, pyIdx_of_nonneg (by norm_num : (0:ℤ) ≤ 1)]
      omega
    · rw [length_pySlice, pyIdx_of_nonneg (by norm_num : (0:ℤ) ≤ 1),
        pyIdx_of_nonneg (by norm_num : (0:ℤ) ≤ 1 + 1)]
      omega
    · rw [← List.length_eq_zero, length_pySliceFrom,
        pyIdx_of_nonneg (by norm_num : (0:ℤ) ≤ 1 + 1)]
      omega
  · intro h1
    have hgc : groupCounts samples.length t v = (1, 0, 0) := by
      rw [h1]; norm_num [groupCounts]
    rw [groupAssign_fst, groupAssign_snd, groupAssign_thd, hgc]
    refine ⟨?_, ?_, ?_⟩
    · rw [length_pySliceTo, pyIdx_of_nonneg (by norm_num : (0:ℤ) ≤ 1)]
      omega
    · rw [← List.length_eq_zero, length_pySlice,
        pyIdx_of_nonneg (by norm_num : (0:ℤ) ≤ 1),
        pyIdx_of_nonneg (by norm_num : (0:ℤ) ≤ 1 + 0)]
      omega
    · rw [← List.length_eq_zero, length_pySliceFrom,
        pyIdx_of_nonneg (by norm_num : (0:ℤ) ≤ 1 + 0)]
      omega
  · intro h0
    have hs : samples = [] := List.length_eq_zero.1 h0
    subst hs
    rw [groupAssign_fst, groupAssign_snd, groupAssign_thd]
    simp [pySliceTo, pySlice, pySliceFrom]

/-- Witness for C2: concrete groups of sizes 3 and 2 under the default ratios
`(0.7, 0.15)`, instantiating the size-3 train guarantee and the size-2 rule. -/
theorem c2_group_rules_witness :
    1 ≤ (groupAssign ([0, 1, 2] : List ℕ) (7/10) (3/20)).1.length ∧
    (groupAssign ([0, 1] : List ℕ) (7/10) (3/20)).1.length = 1 ∧
    (groupAssign ([0, 1] : List ℕ) (7/10) (3/20)).2.1.length = 1 ∧
    (groupAssign ([0, 1] : List ℕ) (7/10) (3/20)).2.2 = [] :=
  ⟨((c2_group_rules [0, 1, 2] (7/10) (3/20) (by norm_num) (by norm_num)).1
      (by norm_num)).1,
   (c2_group_rules [0, 1] (7/10) (3/20) (by norm_num) (by norm_num)).2.1
      (by norm_num)⟩

/-! ## Claim C3 — `dataset_aware_split` keeps datasets atomic -/

theorem addKey_nodup {ks : List String} {k : String} (h : ks.Nodup) :
    (addKey ks k).Nodup := by
  unfold addKey
  split_ifs with hk
  · exact h
  · refine List.nodup_append.2 ⟨h, List.nodup_singleton k, ?_⟩
    intro a ha hb
    rw [List.mem_singleton] at hb
    subst hb
    exact hk ha

theorem foldl_addKey_nodup (key : α → String) (l : List α) (acc : List String)
    (h : acc.Nodup) : (l.foldl (fun ks x => addKey ks (key x)) acc).Nodup := by
  induction l generalizing acc with
  | nil => exact h
  | cons x xs ih => exact ih _ (addKey_nodup h)

theorem groupKeys_nodup (key : α → String) (l : List α) : (groupKeys key l).Nodup :=
  foldl_addKey_nodup key l [] List.nodup_nil

theorem mem_collectByKeys {data : List Record} {kl : List String} {x : Record}
    (h : x ∈ collectByKeys data kl) : x.dataset_name ∈ kl := by
  unfold collectByKeys at h
  rw [List.mem_flatten] at h
  obtain ⟨l, hl, hx⟩ := h
  rw [List.mem_map] at hl
  obtain ⟨k, hk, rfl⟩ := hl
  rw [List.mem_filter] at hx
  rw [of_decide_eq_true hx.2]
  exact hk

theorem pySlices_disjoint {l : List String} (hnd : l.Nodup) {a b : ℤ}
    (ha : 0 ≤ a) (hab : a ≤ b) :
    (pySliceTo l a).Disjoint (pySlice l a b) ∧
    (pySliceTo l a).Disjoint (pySliceFrom l b) ∧
    (pySlice l a b).Disjoint (pySliceFrom l b) := by
  have heq := pySlices_eq l ha hab
  rw [← heq, List.nodup_append, List.nodup_append] at hnd
  refine ⟨?_, ?_, hnd.2.1.2.2⟩
  · intro x hx hx2
    exact hnd.2.2 hx (List.mem_append_left _ hx2)
  · intro x hx hx3
    exact hnd.2.2 hx (List.mem_append_right _ hx3)

/-- C3 (confirmed): `dataset_aware_split` never places two records with the
same `dataset_name` into different output buckets — each distinct dataset
lands entirely in exactly one of train, val or test. -/
theorem c3_dataset_atomic (τ : List String → List String) (data : List Record)
    (t v u : ℚ) (hτ : ∀ l, (τ l).Perm l) :
    (∀ x ∈ (dataset_aware_split τ data t v u).1,
       ∀ y ∈ (dataset_aware_split τ data t v u).2.1, x.dataset_name ≠ y.dataset_name) ∧
    (∀ x ∈ (dataset_aware_split τ data t v u).1,
       ∀ y ∈ (dataset_aware_split τ data t v u).2.2, x.dataset_name ≠ y.dataset_name) ∧
    (∀ x ∈ (dataset_aware_split τ data t v u).2.1,
       ∀ y ∈ (dataset_aware_split τ data t v u).2.2, x.dataset_name ≠ y.dataset_name) := by
  have hnd : (datasetKeyOrder τ data).Nodup :=
    ((hτ _).nodup_iff).2 (groupKeys_nodup _ _)
  have h1 : (0 : ℤ) ≤ nTrainDatasets (datasetKeyOrder τ data) t :=
    le_trans one_pos.le (le_max_left _ _)
  have h2 : (0 : ℤ) ≤ nValDatasets (datasetKeyOrder τ data) v := by
    unfold nValDatasets
    split_ifs
    · exact le_trans one_pos.le (le_max_left _ _)
    · exact le_rfl
  have hdisj := pySlices_disjoint hnd h1 (le_add_of_nonneg_right h2)
  simp only [dataset_aware_split]
  refine ⟨?_, ?_, ?_⟩
  · intro x hx y hy heq
    exact hdisj.1 (mem_collectByKeys hx) (heq ▸ mem_collectByKeys hy)
  · intro x hx y hy heq
    exact hdisj.2.1 (mem_collectByKeys hx) (heq ▸ mem_collectByKeys hy)
  · intro x hx y hy heq
    exact hdisj.2.2 (mem_collectByKeys hx) (heq ▸ mem_collectByKeys hy)

/-- Concrete canonical record of a dataset `"dsA"`, for witnesses. -/
def recA : Record :=
  { dataset_name := "dsA", sample_id := "1", image_path := "imgs/a.png",
    diagnosis := "melanoma", age := none, sex := none, anatomical_site := none,
    metadata := [], vqa_questions := [] }

/-- Concrete canonical record of a dataset `"dsB"`, for witnesses. -/
def recB : Record :=
  { dataset_name := "dsB", sample_id := "2", image_path := "imgs/b.png",
    diagnosis := "nevus", age := none, sex := none, anatomical_site := none,
    metadata := [], vqa_questions := [] }

/-- Witness for C3: two concrete records from two datasets under the default
ratios, with the identity shuffle. -/
theorem c3_dataset_atomic_witness :
    (∀ x ∈ (dataset_aware_split id [recA, recB] (7/10) (3/20) (3/20)).1,
       ∀ y ∈ (dataset_aware_split id [recA, recB] (7/10) (3/20) (3/20)).2.1,
       x.dataset_name ≠ y.dataset_name) ∧
    (∀ x ∈ (dataset_aware_split id [recA, recB] (7/10) (3/20) (3/20)).1,
       ∀ y ∈ (dataset_aware_split id [recA, recB] (7/10) (3/20) (3/20)).2.2,
       x.dataset_name ≠ y.dataset_name) ∧
    (∀ x ∈ (dataset_aware_split id [recA, recB] (7/10) (3/20) (3/20)).2.1,
       ∀ y ∈ (dataset_aware_split id [recA, recB] (7/10) (3/20) (3/20)).2.2,
       x.dataset_name ≠ y.dataset_name) :=
  c3_dataset_atomic id [recA, recB] (7/10) (3/20) (3/20) (fun l => List.Perm.refl l)

/-! ## Claim C4 — ratio validation across the three policies -/

/-- C4 (counterexample): `dataset_aware_split` performs no ratio validation.
For ratios `(0.5, 0.5, 0.5)` — whose sum differs from 1 by `0.5 > 1e-6` — it
does not fail; it happily assigns the input record to the train bucket. -/
theorem c4_counterexample :
    |(1/2 : ℚ) + 1/2 + 1/2 - 1| > 1 / 1000000 ∧
    dataset_aware_split id [recA] (1/2) (1/2) (1/2) = ([recA], [], []) := by
  constructor
  · rw [show ((1:ℚ)/2 + 1/2 + 1/2 - 1) = 1/2 by norm_num]
    rw [abs_of_nonneg (by norm_num)]
    norm_num
  · have e1 : pytrunc ((1:ℚ)/2) = 0 := by
      rw [pytrunc_of_nonneg (by norm_num)]
      norm_num
    norm_num [dataset_aware_split, datasetKeyOrder, groupKeys, addKey,
      nTrainDatasets, nValDatasets, e1, collectByKeys, pySliceTo, pySlice,
      pySliceFrom, pyIdx, List.filter, recA]

/-- C4 (amended): `random_split` and `stratified_split` do fail with the
invalid-argument error before assigning any record when the ratio sum is off
by more than `1e-6`; `dataset_aware_split` performs no such validation. -/
theorem c4_ratio_checks {α : Type} (σ : List α → List α) (key : α → String)
    (data : List α) (t v u : ℚ) (h : |t + v + u - 1| > 1 / 1000000) :
    random_split σ data t v u = none ∧ stratified_split σ key data t v u = none := by
  have hb : ratiosBad t v u := h
  constructor
  · simp [random_split, hb]
  · simp [stratified_split, hb]

/-- Witness for C4: the bad triple `(0.5, 0.5, 0.5)` on a concrete list. -/
theorem c4_ratio_checks_witness :
    random_split id ([0, 1] : List ℕ) (1/2) (1/2) (1/2) = none ∧
    stratified_split id (fun _ => "k") ([0, 1] : List ℕ) (1/2) (1/2) (1/2) = none :=
  c4_ratio_checks id (fun _ => "k") [0, 1] (1/2) (1/2) (1/2)
    (by rw [show ((1:ℚ)/2 + 1/2 + 1/2 - 1) = 1/2 by norm_num,
          abs_of_nonneg (by norm_num : (0:ℚ) ≤ 1/2)]
        norm_num)

/-! ## Claims C5 and C10 — `enrich_sample` -/

theorem dedupFilter_zero (seen : List String) (gen : List QA) :
    dedupFilter seen 0 gen = [] := by
  induction gen generalizing seen with
  | nil => rfl
  | cons qa rest ih =>
      unfold dedupFilter
      rw [if_neg (by simp)]
      exact ih seen

theorem length_dedupFilter (seen : List String) (budget : ℕ) (gen : List QA) :
    (dedupFilter seen budget gen).length = min budget (dedupAll seen gen).length := by
  induction gen generalizing seen budget with
  | nil => simp [dedupFilter, dedupAll]
  | cons qa rest ih =>
      by_cases hmem : lowerStr qa.question ∈ seen
      · rw [dedupFilter, if_neg (by simp [hmem]), dedupAll, if_neg (by simp [hmem])]
        exact ih seen budget
      · cases budget with
        | zero => simp [dedupFilter_zero]
        | succ m =>
            rw [dedupFilter, if_pos ⟨hmem, Nat.succ_pos m⟩, dedupAll, if_pos hmem]
            simp only [List.length_cons, Nat.succ_sub_one]
            rw [ih (lowerStr qa.question :: seen) m]
            omega

/-- C5 (confirmed): enrichment appends exactly
`min(max_new_questions, number of generated questions whose lower-cased text
is new)` questions — the final count is the original count plus that minimum —
and the original `vqa_questions` entries stay unmodified, in their original
relative order, with every new question appended after them. -/
theorem c5_enrich_counts (s : Record) (gen : List QA) (maxNewQuestions : ℕ) :
    (enrich_sample s gen maxNewQuestions).vqa_questions.length =
      s.vqa_questions.length +
        min maxNewQuestions (dedupAll (existingTexts s) gen).length ∧
    (enrich_sample s gen maxNewQuestions).vqa_questions =
      s.vqa_questions ++ dedupFilter (existingTexts s) maxNewQuestions gen ∧
    (enrich_sample s gen maxNewQuestions).vqa_questions.take s.vqa_questions.length =
      s.vqa_questions := by
  refine ⟨?_, rfl, ?_⟩
  · simp [enrich_sample, length_dedupFilter]
  · simp [enrich_sample, List.take_left]

/-- C10 (confirmed): `enrich_sample` copies its argument — every field other
than `vqa_questions` is returned unchanged, and the original `vqa_questions`
list survives as the untouched prefix of the new one (the Python
`sample.copy()` plus list concatenation never mutate the input record). -/
theorem c10_enrich_frame (s : Record) (gen : List QA) (maxNewQuestions : ℕ) :
    (enrich_sample s gen maxNewQuestions).dataset_name = s.dataset_name ∧
    (enrich_sample s gen maxNewQuestions).sample_id = s.sample_id ∧
    (enrich_sample s gen maxNewQuestions).image_path = s.image_path ∧
    (enrich_sample s gen maxNewQuestions).diagnosis = s.diagnosis ∧
    (enrich_sample s gen maxNewQuestions).age = s.age ∧
    (enrich_sample s gen maxNewQuestions).sex = s.sex ∧
    (enrich_sample s gen maxNewQuestions).anatomical_site = s.anatomical_site ∧
    (enrich_sample s gen maxNewQuestions).metadata = s.metadata ∧
    (enrich_sample s gen maxNewQuestions).vqa_questions.take s.vqa_questions.length =
      s.vqa_questions :=
  ⟨rfl, rfl, rfl, rfl, rfl, rfl, rfl, rfl, by simp [enrich_sample, List.take_left]⟩

/-! ## Claim C6 — validator age errors and warnings -/

theorem mem_qaCheckOne_fst {i j : ℕ} {e : QAEntry} {m : VMsg}
    (h : m ∈ (qaCheckOne i j e).1) :
    m = VMsg.qaNotDict i j ∨ m = VMsg.qaMissingKeys i j := by
  cases e with
  | notDict =>
      simp only [qaCheckOne, List.mem_singleton] at h
      exact Or.inl h
  | entry q a =>
      simp only [qaCheckOne] at h
      split at h
      · rw [List.mem_singleton] at h
        exact Or.inr h
      · simp at h

theorem invalidAge_not_mem_qa (i : ℕ) (l : List QAEntry) :
    VMsg.invalidAgeFormat i ∉ (qaChecks i l).1 := by
  intro h
  unfold qaChecks at h
  rw [List.mem_flatten] at h
  obtain ⟨ms, hms, hm⟩ := h
  rw [List.mem_map] at hms
  obtain ⟨p, hp, hpe⟩ := hms
  rw [← hpe] at hm
  rcases mem_qaCheckOne_fst hm with h' | h' <;> simp at h' 

/-- C6 (confirmed): when the `age` key is present and non-null,
`validate_sample` emits the invalid-age-format *error* exactly when the value
fails float coercion, and for a coercible value outside `[0, 150]` it emits
the unusual-age *warning* while emitting no age-format error. -/
theorem c6_age_validation (s : VSample) (i : ℕ) (v : PyVal)
    (hpres : s.age = some v) (hnn : v ≠ PyVal.vnone) :
    (tryFloat v = none → VMsg.invalidAgeFormat i ∈ (validate_sample s i).1) ∧
    (∀ q : ℚ, tryFloat v = some q → (q < 0 ∨ 150 < q) →
      VMsg.unusualAge i q ∈ (validate_sample s i).2 ∧
      VMsg.invalidAgeFormat i ∉ (validate_sample s i).1) := by
  constructor
  · intro htf
    simp only [validate_sample, hpres, htf]
    rw [if_neg hnn]
    simp [List.mem_append]
  · intro q htf hout
    constructor
    · simp only [validate_sample, hpres, htf]
      rw [if_neg hnn, if_pos hout]
      simp [List.mem_append]
    · simp only [validate_sample, hpres, htf]
      rw [if_neg hnn, if_pos hout]
      intro hmem
      simp only [List.mem_append] at hmem
      rcases hmem with ((h | h) | h) | h
      · simp at h
      · simp at h
      · rcases hv : s.vqa_questions with _ | (_ | l)
        · rw [hv] at h
          simp at h
        · rw [hv] at h
          simp at h
        · rw [hv] at h
          exact invalidAge_not_mem_qa i l h
      · rcases hp : s.image_path with _ | p
        · rw [hp] at h
          simp at h
        · rw [hp] at h
          split at h <;> simp at h

/-- Witness for C6: `age = "not_a_number"` yields the age-format error;
`age = 200` yields the unusual-age warning and no age-format error. -/
theorem c6_age_validation_witness :
    VMsg.invalidAgeFormat 0 ∈
      (validate_sample { age := some (PyVal.vstr "not_a_number") } 0).1 ∧
    VMsg.unusualAge 0 200 ∈
      (validate_sample { age := some (PyVal.vnum 200) } 0).2 ∧
    VMsg.invalidAgeFormat 0 ∉
      (validate_sample { age := some (PyVal.vnum 200) } 0).1 :=
  ⟨(c6_age_validation _ 0 (PyVal.vstr "not_a_number") rfl (by decide)).1 (by decide),
   ((c6_age_validation _ 0 (PyVal.vnum 200) rfl (by decide)).2 200 rfl
      (Or.inr (by norm_num))).1,
   ((c6_age_validation _ 0 (PyVal.vnum 200) rfl (by decide)).2 200 rfl
      (Or.inr (by norm_num))).2⟩

/-! ## Claim C7 — `standardize_age` -/

/-- C7 (confirmed): `standardize_age` returns `None` exactly on non-coercible
input or a numeric value outside `[0, 150]`, returns the coerced value
unchanged otherwise, and is idempotent when its result is fed back in. -/
theorem c7_standardize_age (x : PyVal) :
    (tryFloat x = none → standardize_age x = none) ∧
    (∀ q : ℚ, tryFloat x = some q → (q < 0 ∨ 150 < q) → standardize_age x = none) ∧
    (∀ q : ℚ, tryFloat x = some q → 0 ≤ q → q ≤ 150 → standardize_age x = some q) ∧
    standardize_age (pyOfOpt (standardize_age x)) = standardize_age x := by
  have hmain : ∀ y : PyVal,
      (tryFloat y = none → standardize_age y = none) ∧
      (∀ q : ℚ, tryFloat y = some q → (q < 0 ∨ 150 < q) → standardize_age y = none) ∧
      (∀ q : ℚ, tryFloat y = some q → 0 ≤ q → q ≤ 150 → standardize_age y = some q) := by
    intro y
    refine ⟨?_, ?_, ?_⟩
    · intro h
      cases y with
      | vnone => rfl
      | vnum q => simp [tryFloat] at h
      | vstr s =>
          simp only [tryFloat] at h
          simp [standardize_age, tryFloat, h]
    · intro q h hout
      have hc : ¬ (0 ≤ q ∧ q ≤ 150) := by
        rcases hout with h' | h'
        · exact fun hb => absurd hb.1 (not_le.2 h')
        · exact fun hb => absurd hb.2 (not_le.2 h')
      cases y with
      | vnone => rfl
      | vnum r =>
          simp only [tryFloat, Option.some.injEq] at h
          subst h
          simp [standardize_age, tryFloat, hc]
      | vstr s =>
          simp only [tryFloat] at h
          simp [standardize_age, tryFloat, h, hc]
    · intro q h h0 h150
      have hc : 0 ≤ q ∧ q ≤ 150 := ⟨h0, h150⟩
      cases y with
      | vnone => simp [tryFloat] at h
      | vnum r =>
          simp only [tryFloat, Option.some.injEq] at h
          subst h
          simp [standardize_age, tryFloat, hc]
      | vstr s =>
          simp only [tryFloat] at h
          simp [standardize_age, tryFloat, h, hc]
  refine ⟨(hmain x).1, (hmain x).2.1, (hmain x).2.2, ?_⟩
  rcases hx : standardize_age x with _ | q
  · rfl
  · have hq : 0 ≤ q ∧ q ≤ 150 := by
      cases x with
      | vnone => simp [standardize_age] at hx
      | vnum r =>
          simp only [standardize_age, tryFloat] at hx
          split at hx
          · rename_i hb
            rw [Option.some.injEq] at hx
            subst hx
            exact hb
          · simp at hx
      | vstr s =>
          simp only [standardize_age, tryFloat] at hx
          rcases hs : pyFloatOfStr s with _ | r
          · rw [hs] at hx
            simp at hx
          · rw [hs] at hx
            simp only at hx
            split at hx
            · rename_i hb
              rw [Option.some.injEq] at hx
              subst hx
              exact hb
            · simp at hx
    exact (hmain (PyVal.vnum q)).2.2 q rfl hq.1 hq.2

/-- Witness for C7: the numeric string `"42"` is kept as `42`; the string
`"not_a_number"` and the out-of-range value `200` are mapped to `None`. -/
theorem c7_standardize_age_witness :
    standardize_age (PyVal.vstr "42") = some 42 ∧
    standardize_age (PyVal.vstr "not_a_number") = none ∧
    standardize_age (PyVal.vnum 200) = none :=
  ⟨(c7_standardize_age (PyVal.vstr "42")).2.2.1 42 (by decide) (by norm_num) (by norm_num),
   (c7_standardize_age (PyVal.vstr "not_a_number")).1 (by decide),
   (c7_standardize_age (PyVal.vnum 200)).2.1 200 rfl (Or.inr (by norm_num))⟩

/-! ## Claim C8 — `standardize_diagnosis` -/

/-- C8 (counterexample): a non-empty input that is not in the synonym table is
*not* returned as given — it comes back lower-cased. `"XYZ"` maps to `"xyz"`,
so the pass-through is normalizing, not the identity. -/
theorem c8_counterexample :
    standardize_diagnosis (PyVal.vstr "XYZ") = "xyz" ∧ "xyz" ≠ "XYZ" := by
  constructor
  · decide
  · decide

/-- C8 (amended): every known synonym maps to its documented canonical
diagnosis; empty or missing input yields `"unknown"`; and a non-empty input
whose lower-cased, stripped form is not in the table passes through as that
lower-cased, stripped form (never forced to `"unknown"`). -/
theorem c8_standardize_diagnosis :
    (∀ p ∈ diagnosisMap, standardize_diagnosis (PyVal.vstr p.1) = p.2) ∧
    standardize_diagnosis (PyVal.vstr "") = "unknown" ∧
    standardize_diagnosis PyVal.vnone = "unknown" ∧
    (∀ s : String, s ≠ "" →
      diagnosisMap.lookup (stripStr (lowerStr s)) = none →
      standardize_diagnosis (PyVal.vstr s) = stripStr (lowerStr s)) := by
  refine ⟨by decide, rfl, rfl, ?_⟩
  intro s hs hlook
  simp only [standardize_diagnosis, pyStrOf]
  rw [if_neg (by simp [pyFalsy, hs]), hlook]
  rfl

/-- Witness for C8: the synonym `"mel"` canonicalizes to `"melanoma"`, and the
unmapped `"FooBar"` passes through as `"foobar"`. -/
theorem c8_standardize_diagnosis_witness :
    standardize_diagnosis (PyVal.vstr "mel") = "melanoma" ∧
    standardize_diagnosis (PyVal.vstr "FooBar") = "foobar" := by
  constructor
  · exact c8_standardize_diagnosis.1 ("mel", "melanoma") (by decide)
  · have h := c8_standardize_diagnosis.2.2.2 "FooBar" (by decide) (by decide)
    rw [h]
    decide

/-! ## Claim C9 — position of the universal age question -/

/-- Concrete canonical record whose `age` field is present but zero. -/
def recAgeZero : Record :=
  { dataset_name := "d", sample_id := "s", image_path := "p",
    diagnosis := "unknown", age := some 0, sex := none, anatomical_site := none,
    metadata := [], vqa_questions := [] }

/-- C9 (counterexample): the claim promises the age question whenever the age
field is present, but the code guards it by Python truthiness
(`if sample.get('age'):`), so a record with the canonical age `0` — present —
produces no age question at all. -/
theorem c9_counterexample :
    recAgeZero.age = some 0 ∧
    "What is the age of the patient?" ∉
      (generate_vqa_questions recAgeZero).map QA.question := by
  constructor
  · rfl
  · decide

theorem mem_sexQuestionPart {o : Option String} {qa : QA}
    (h : qa ∈ sexQuestionPart o) : qa.question = "What is the sex of the patient?" := by
  cases o with
  | none => simp [sexQuestionPart] at h
  | some sx =>
      simp only [sexQuestionPart] at h
      split at h
      · rw [List.mem_singleton] at h
        subst h
        rfl
      · simp at h

theorem mem_siteQuestionPart {o : Option String} {qa : QA}
    (h : qa ∈ siteQuestionPart o) :
    qa.question = "Where is this lesion located on the body?" := by
  cases o with
  | none => simp [siteQuestionPart] at h
  | some st =>
      simp only [siteQuestionPart] at h
      split at h
      · rw [List.mem_singleton] at h
        subst h
        rfl
      · simp at h

theorem mem_maligQuestionPart {d : String} {qa : QA}
    (h : qa ∈ maligQuestionPart d) : qa.question = "Is this lesion malignant?" := by
  simp only [maligQuestionPart] at h
  split at h
  · rw [List.mem_singleton] at h
    subst h
    rfl
  · split at h
    · rw [List.mem_singleton] at h
      subst h
      rfl
    · simp at h

/-- C9 (amended): for a record whose `age` is present *and nonzero* (truthy),
the output contains the age question/answer pair immediately after the
diagnosis question (position 1), and everything after it is only ever a sex,
site, or malignancy question. -/
theorem c9_age_question_position (s : Record) (a : ℚ)
    (h : s.age = some a) (h0 : a ≠ 0) :
    ∃ rest, generate_vqa_questions s =
      ⟨"What is the diagnosis of this skin lesion?", s.diagnosis, none⟩ ::
      ⟨"What is the age of the patient?", ageRepr a ++ " years old", none⟩ :: rest ∧
      ∀ qa ∈ rest, qa.question = "What is the sex of the patient?" ∨
        qa.question = "Where is this lesion located on the body?" ∨
        qa.question = "Is this lesion malignant?" := by
  simp only [generate_vqa_questions, h, ageQuestionPart]
  rw [if_pos h0]
  refine ⟨_, rfl, ?_⟩
  intro qa hqa
  rcases List.mem_append.1 hqa with h1 | h1
  · rcases List.mem_append.1 h1 with h2 | h2
    · rcases List.mem_append.1 h2 with h3 | h3
      · simp at h3
      · exact Or.inl (mem_sexQuestionPart h3)
    · exact Or.inr (Or.inl (mem_siteQuestionPart h2))
  · exact Or.inr (Or.inr (mem_maligQuestionPart h1))

/-- Concrete canonical record with a nonzero age, for the C9 witness. -/
def recAged : Record :=
  { dataset_name := "d", sample_id := "s2", image_path := "p2",
    diagnosis := "melanoma", age := some 45, sex := some "male",
    anatomical_site := none, metadata := [], vqa_questions := [] }

/-- Witness for C9: a 45-year-old melanoma record gets the age question in
position 1, right after the diagnosis question. -/
theorem c9_age_question_position_witness :
    ∃ rest, generate_vqa_questions recAged =
      ⟨"What is the diagnosis of this skin lesion?", recAged.diagnosis, none⟩ ::
      ⟨"What is the age of the patient?", ageRepr 45 ++ " years old", none⟩ :: rest ∧
      ∀ qa ∈ rest, qa.question = "What is the sex of the patient?" ∨
        qa.question = "Where is this lesion located on the body?" ∨
        qa.question = "Is this lesion malignant?" :=
  c9_age_question_position recAged 45 rfl (by norm_num)
